import Mathlib

/-!
Verification development for the wormhole file-transfer system:
the envelope cipher framing (crypto.ts), the relay transfer store
(wormhole-relay/src/store.ts) and the memorable-code parser
(wormhole/src/codes.ts), with theorems settling the specified
properties of each component.
-/

set_option autoImplicit false
set_option maxRecDepth 8192

namespace Wormhole

/-! ## Envelope cipher (crypto.ts)

`encrypt` frames AES-256-GCM output as iv (12) ‖ ciphertext ‖ authTag (16);
`decrypt` splits the blob at fixed offsets, rejects blobs shorter than
28 bytes, and rejects any blob whose tag does not verify.  The AEAD
primitive itself is a platform library, so it is modelled by its GCM
structure: a keystream function of (key, iv, length) that the ciphertext
is the byte-wise XOR of the plaintext with, and a tag function of
(key, iv, ciphertext).  Bytes are natural numbers. -/

def IV_LENGTH : Nat := 12

def AUTH_TAG_LENGTH : Nat := 16

def KEY_LENGTH : Nat := 32

/-- A keystream function: key, iv, required length to stream bytes. -/
def Keystream : Type := List Nat → List Nat → Nat → List Nat

/-- A tag function: key, iv, ciphertext to authentication tag. -/
def TagFn : Type := List Nat → List Nat → List Nat → List Nat

/-- Model of `encrypt(plaintext, key)`: `iv ++ ciphertext ++ authTag` where the
ciphertext is the CTR-mode XOR of the plaintext with the keystream and
the tag authenticates the ciphertext.  The random iv is an explicit
argument (the source draws it from `crypto.randomBytes`). -/
def encrypt (ks : Keystream) (tagf : TagFn) (key iv plaintext : List Nat) : List Nat :=
  let encrypted := List.zipWith Nat.xor plaintext (ks key iv plaintext.length)
  iv ++ encrypted ++ tagf key iv encrypted

/-- The two failure modes of `decrypt`: the explicit too-short check, and
GCM tag verification failure. -/
inductive DecryptError where
  | tooShort
  | authFailed
deriving Repr, DecidableEq

/-- Model of `decrypt(blob, key)`: reject blobs shorter than `IV_LENGTH +
AUTH_TAG_LENGTH`, split off iv and tag at fixed offsets, verify the tag,
and only then XOR the ciphertext back to the plaintext. -/
def decrypt (ks : Keystream) (tagf : TagFn) (key blob : List Nat) :
    Except DecryptError (List Nat) :=
  if blob.length < IV_LENGTH + AUTH_TAG_LENGTH then
    .error .tooShort
  else
    let iv := blob.take IV_LENGTH
    let authTag := blob.drop (blob.length - AUTH_TAG_LENGTH)
    let ciphertext := (blob.take (blob.length - AUTH_TAG_LENGTH)).drop IV_LENGTH
    if tagf key iv ciphertext = authTag then
      .ok (List.zipWith Nat.xor ciphertext (ks key iv ciphertext.length))
    else
      .error .authFailed

/-! ## Transfer store (wormhole-relay/src/store.ts)

The JS `Map` is modelled as an association list in insertion order with
unique keys; `Date.now()` is an explicit `now : Nat` argument. -/

structure TransferEntry where
  data : List Nat
  createdAt : Nat
  metadata : Option String
deriving Repr, DecidableEq

structure TransferStore where
  entries : List (String × TransferEntry)
  maxSize : Nat
  ttlMs : Nat
deriving Repr, DecidableEq

/-- Model of `Map.get`: the value stored under `id`, if any. -/
def lookupId : List (String × TransferEntry) → String → Option TransferEntry
  | [], _ => none
  | (k, v) :: es, id => if k = id then some v else lookupId es id

/-- Model of `Map.delete`: remove the entry stored under `id`, if any. -/
def eraseId : List (String × TransferEntry) → String → List (String × TransferEntry)
  | [], _ => []
  | (k, v) :: es, id => if k = id then es else (k, v) :: eraseId es id

/-- A `Map` never holds two entries under one key. -/
def TransferStore.WF (s : TransferStore) : Prop :=
  (s.entries.map Prod.fst).Nodup

inductive PutResult where
  | accepted
  | rejected (error : String)
deriving Repr, DecidableEq

/-- Model of `put(id, data, metadata?)`: size check first, then duplicate check,
otherwise store the entry with the current timestamp. -/
def TransferStore.put (s : TransferStore) (id : String) (data : List Nat)
    (metadata : Option String) (now : Nat) : PutResult × TransferStore :=
  if s.maxSize < data.length then
    (.rejected ("Payload too large: " ++ toString data.length ++
      " bytes (max " ++ toString s.maxSize ++ ")"), s)
  else if (lookupId s.entries id).isSome then
    (.rejected "Transfer ID already exists", s)
  else
    (.accepted, { s with entries := s.entries ++ [(id, ⟨data, now, metadata⟩)] })

/-- Model of `get(id)`: one-time retrieval, the entry is deleted after pickup.
No check against the clock or the TTL is made. -/
def TransferStore.get (s : TransferStore) (id : String) :
    Option TransferEntry × TransferStore :=
  match lookupId s.entries id with
  | none => (none, s)
  | some entry => (some entry, { s with entries := eraseId s.entries id })

/-- Model of `delete(id)`: remove the entry if present, report whether one was. -/
def TransferStore.del (s : TransferStore) (id : String) : Bool × TransferStore :=
  ((lookupId s.entries id).isSome, { s with entries := eraseId s.entries id })

/-- Model of `has(id)`. -/
def TransferStore.hasId (s : TransferStore) (id : String) : Bool :=
  (lookupId s.entries id).isSome

/-- Model of the `count` getter. -/
def TransferStore.count (s : TransferStore) : Nat :=
  s.entries.length

/-- Model of `cleanup()`: remove every entry with `now - createdAt > ttlMs`
(strict comparison) and return the number removed. -/
def TransferStore.cleanup (s : TransferStore) (now : Nat) : Nat × TransferStore :=
  ((s.entries.filter (fun p => decide (s.ttlMs < now - p.2.createdAt))).length,
   { s with entries :=
      s.entries.filter (fun p => !decide (s.ttlMs < now - p.2.createdAt)) })

/-! ## Memorable codes (wormhole/src/codes.ts)

`parseCode` matches the anchored regular expression
`(\d+)-([a-z]+)-([a-z]+)` and then range-checks the decimal value of the
first group.  As the three character classes are pairwise disjoint, the
regular expression is embedded as a deterministic scan. -/

/-- Decimal value of a digit string (`parseInt(s, 10)` on all-digit input). -/
def decimalValue (ds : List Char) : Nat :=
  ds.foldl (fun a c => a * 10 + (c.toNat - 48)) 0

/-- Match against `(\d+)-([a-z]+)-([a-z]+)` anchored at both ends,
returning the three groups: a maximal run of digits, a dash, a maximal
run of lowercase letters, a dash, and a lowercase remainder.  The three
character classes are pairwise disjoint, so this deterministic scan is
the regular expression. -/
def splitCode (cs : List Char) : Option (List Char × List Char × List Char) :=
  let ds := cs.takeWhile Char.isDigit
  let r1 := cs.dropWhile Char.isDigit
  let w1 := (r1.drop 1).takeWhile Char.isLower
  let r3 := (r1.drop 1).dropWhile Char.isLower
  let w2 := r3.drop 1
  if r1.take 1 = ['-'] ∧ r3.take 1 = ['-'] ∧
      ds ≠ [] ∧ w1 ≠ [] ∧ w2 ≠ [] ∧ w2.all Char.isLower = true then
    some (ds, w1, w2)
  else none

/-- Model of `parseCode(code)`: regex match, then reject values outside [1, 999].
Pure and total; `none` is the explicit failure marker. -/
def parseCode (code : String) : Option (Nat × String × String) :=
  match splitCode code.toList with
  | none => none
  | some (ds, w1, w2) =>
    let num := decimalValue ds
    if num < 1 ∨ 999 < num then none
    else some (num, String.mk w1, String.mk w2)

/-- The 500-word dictionary used by `generateCode` (not consulted by
`parseCode` or `isValidCode`). -/
def WORDS : List String := [
  "acid", "acorn", "acre", "agent", "album", "alert", "alien", "alley", "amber", "angel",
  "angle", "ankle", "anvil", "apple", "apron", "arena", "atlas", "axle", "badge", "bagel",
  "baker", "balm", "bamboo", "banjo", "barn", "baron", "basin", "batch", "beach", "beard",
  "beast", "bench", "berry", "birch", "blade", "blank", "blast", "blaze", "bloom", "bluff",
  "board", "booth", "boulder", "brain", "brass", "brave", "brick", "bridge", "brisk", "brook",
  "brush", "bubble", "bucket", "buddy", "buggy", "bunny", "cabin", "cable", "camel", "candy",
  "canoe", "cargo", "cedar", "chain", "chalk", "charm", "chase", "chess", "chill", "china",
  "choir", "chunk", "cider", "cigar", "circle", "civic", "claim", "clamp", "clash", "cliff",
  "climb", "clock", "cloud", "clown", "coach", "cobra", "cocoa", "comet", "coral", "couch",
  "crane", "crash", "crest", "crisp", "cross", "crowd", "crown", "crush", "curve", "cycle",
  "dagger", "dairy", "dance", "delta", "demon", "derby", "diary", "ditch", "dodge", "donut",
  "draft", "dragon", "drama", "dream", "drift", "drill", "drone", "drum", "dune", "dwarf",
  "eagle", "earth", "easel", "eclipse", "elder", "ember", "emoji", "epoch", "equip", "event",
  "exile", "fable", "faith", "falcon", "feast", "fence", "ferry", "fiber", "field", "flame",
  "flash", "fleet", "flint", "float", "flood", "flora", "flute", "focus", "forge", "forum",
  "fossil", "fox", "frame", "frost", "fruit", "fudge", "fungi", "fury", "galaxy", "gamma",
  "garden", "garlic", "gauge", "gavel", "ghost", "giant", "ginger", "glacier", "glaze", "globe",
  "glove", "glyph", "goat", "goblet", "grace", "grain", "grape", "gravel", "green", "grill",
  "grove", "guard", "guild", "guitar", "gypsy", "habit", "hammer", "harbor", "haven", "hawk",
  "hazel", "heart", "hedge", "heron", "honey", "honor", "horse", "hotel", "humor", "hydra",
  "ivory", "jacket", "jade", "jaguar", "jewel", "joker", "judge", "juice", "jungle", "karma",
  "kayak", "kernel", "kiosk", "knight", "knob", "label", "lace", "lake", "lance", "lantern",
  "larch", "laser", "latch", "lava", "leaf", "ledge", "lemon", "lens", "lever", "light",
  "lilac", "linen", "lion", "llama", "lodge", "lotus", "lunar", "lunch", "mango", "manor",
  "maple", "marsh", "mason", "match", "maze", "medal", "melon", "mesa", "metal", "micro",
  "miner", "mint", "moat", "model", "molar", "money", "moose", "morph", "moth", "motor",
  "mount", "mouse", "mural", "music", "myth", "navel", "nerve", "nexus", "noble", "north",
  "notch", "novel", "nudge", "oasis", "ocean", "olive", "omega", "onion", "opera", "orbit",
  "organ", "otter", "outer", "oxide", "oyster", "panda", "panel", "paper", "park", "patch",
  "pearl", "pedal", "penny", "petal", "phase", "piano", "pilot", "pinch", "pixel", "pizza",
  "plank", "plant", "plaza", "plumb", "plume", "poach", "polar", "pond", "porch", "pouch",
  "pound", "prism", "probe", "prong", "prose", "proud", "prune", "pulse", "punch", "pupil",
  "quail", "quake", "query", "quest", "quill", "quota", "radar", "radio", "raven", "realm",
  "ridge", "rivet", "robin", "robot", "rogue", "roost", "rover", "ruby", "rugby", "rumor",
  "salad", "salon", "salsa", "sandy", "sauce", "sauna", "scale", "scout", "shark", "shelf",
  "shell", "shift", "shirt", "shock", "shore", "shrub", "sigma", "silk", "siren", "skull",
  "slate", "sleek", "slice", "slope", "smoke", "snail", "snake", "solar", "sonic", "space",
  "spark", "spear", "spice", "spike", "spine", "spoke", "spoon", "spray", "squid", "staff",
  "stage", "stake", "stamp", "steam", "steel", "steep", "steer", "stern", "stone", "stork",
  "storm", "stove", "straw", "sugar", "surge", "swamp", "swarm", "swift", "sword", "syrup",
  "table", "talon", "tango", "thorn", "tiara", "tidal", "tiger", "toast", "topaz", "torch",
  "tower", "trace", "trail", "train", "tramp", "trend", "tribe", "trick", "trout", "truck",
  "tulip", "tumor", "tundra", "turbo", "turf", "tweed", "ultra", "umber", "unity", "urban",
  "usher", "valve", "vault", "venom", "verse", "vigor", "villa", "viola", "viper", "vivid",
  "vocal", "vodka", "vortex", "wafer", "wagon", "waltz", "watch", "water", "whale", "wheat",
  "wheel", "whirl", "widow", "wings", "witch", "wizard", "world", "wound", "wrist", "yacht",
  "yield", "zebra", "zinc", "cozy", "haze", "dome", "pine", "reef", "sage", "tide",
  "vine", "wren", "yoke", "zone", "arch", "bolt", "cape", "claw", "cone", "cork",
  "dusk", "elm", "fang", "fern", "fist", "gale", "gem", "glen", "harp", "helm",
  "hive", "hull", "iris", "isle", "jolt", "kelp", "kiln", "knot", "lamp", "lark"]

/-- Model of `isValidCode(code)`. -/
def isValidCode (code : String) : Bool :=
  (parseCode code).isSome

/-- The guard at the top of `receive` in wormhole/src/index.ts: throw on
an invalid code before deriving any key or touching the network. -/
def receiveValidated (code : String) : Except String Unit :=
  if isValidCode code then .ok ()
  else .error ("Invalid wormhole code: " ++ code)

/-! ## Lemmas about the store map -/

theorem lookupId_not_mem (es : List (String × TransferEntry)) (id : String)
    (h : id ∉ es.map Prod.fst) : lookupId es id = none := by
  induction es with
  | nil => rfl
  | cons p es ih =>
    cases p with
    | mk k v =>
      simp only [List.map_cons, List.mem_cons] at h
      push_neg at h
      simp only [lookupId]
      rw [if_neg (fun hk => h.1 hk.symm)]
      exact ih h.2

theorem lookupId_eraseId_self (es : List (String × TransferEntry)) (id : String)
    (h : (es.map Prod.fst).Nodup) : lookupId (eraseId es id) id = none := by
  induction es with
  | nil => rfl
  | cons p es ih =>
    cases p with
    | mk k v =>
      simp only [List.map_cons, List.nodup_cons] at h
      by_cases hk : k = id
      · simp only [eraseId, if_pos hk]
        exact lookupId_not_mem es id (hk ▸ h.1)
      · simp only [eraseId, if_neg hk, lookupId]
        exact ih h.2

theorem filter_length_split {α : Type} (p : α → Bool) (l : List α) :
    (l.filter p).length + (l.filter (fun a => !p a)).length = l.length := by
  induction l with
  | nil => rfl
  | cons a l ih =>
    cases hp : p a <;> simp [List.filter_cons, hp, ← ih] <;> omega

theorem put_too_large (s : TransferStore) (id : String) (data : List Nat)
    (metadata : Option String) (now : Nat) (h : s.maxSize < data.length) :
    s.put id data metadata now =
      (.rejected ("Payload too large: " ++ toString data.length ++
        " bytes (max " ++ toString s.maxSize ++ ")"), s) := by
  simp [TransferStore.put, h]

theorem put_duplicate (s : TransferStore) (id : String) (data : List Nat)
    (metadata : Option String) (now : Nat) (h1 : data.length ≤ s.maxSize)
    (h2 : (lookupId s.entries id).isSome = true) :
    s.put id data metadata now = (.rejected "Transfer ID already exists", s) := by
  simp [TransferStore.put, Nat.not_lt.mpr h1, h2]

theorem put_accepts (s : TransferStore) (id : String) (data : List Nat)
    (metadata : Option String) (now : Nat) (h1 : data.length ≤ s.maxSize)
    (h2 : (lookupId s.entries id).isSome = false) :
    s.put id data metadata now =
      (.accepted, { s with entries := s.entries ++ [(id, ⟨data, now, metadata⟩)] }) := by
  simp [TransferStore.put, Nat.not_lt.mpr h1, h2]

/-! ## Claims about the store -/

/-- Claim C1 (amended): `get(id)` returns any physically present entry
and performs no check against the TTL, so a logically expired entry
(age at least `ttlMs`) is still returned until the sweep removes it. -/
theorem get_returns_entry_regardless_of_age (s : TransferStore) (id : String)
    (e : TransferEntry) (now : Nat) (hfind : lookupId s.entries id = some e)
    (hexpired : s.ttlMs ≤ now - e.createdAt) :
    (s.get id).1 = some e := by
  simp [TransferStore.get, hfind]

theorem get_returns_entry_regardless_of_age_witness :
    lookupId [("a", TransferEntry.mk [1] 0 none)] "a" = some (TransferEntry.mk [1] 0 none) ∧
    (TransferStore.mk [("a", TransferEntry.mk [1] 0 none)] 100 10).ttlMs ≤ 50 - 0 ∧
    ((TransferStore.mk [("a", TransferEntry.mk [1] 0 none)] 100 10).get "a").1 =
      some (TransferEntry.mk [1] 0 none) :=
  ⟨by decide, by decide,
    get_returns_entry_regardless_of_age _ "a" _ 50 (by decide) (by decide)⟩

/-- Claim C1, as stated, is false: in a store with TTL 10 ms holding an
entry created at time 0, at time 50 (age 50, far beyond the TTL, sweep
not yet run) `get` still returns the entry rather than absent. -/
theorem get_of_expired_entry_not_absent :
    (TransferStore.mk [("x", TransferEntry.mk [1] 0 none)] 100 10).ttlMs ≤ 50 - 0 ∧
    ((TransferStore.mk [("x", TransferEntry.mk [1] 0 none)] 100 10).get "x").1 ≠ none := by
  decide

/-- Claim C2: a successful `get(id)` removes the entry in the same
operation: afterwards `get(id)` is absent, `has(id)` is false, and a
fresh `put` for the same id is accepted whenever its payload is within
the size limit. -/
theorem get_destructive_read (s : TransferStore) (id : String) (e : TransferEntry)
    (hWF : s.WF) (hget : (s.get id).1 = some e) :
    ((s.get id).2.get id).1 = none ∧
    (s.get id).2.hasId id = false ∧
    ∀ (data : List Nat) (metadata : Option String) (now : Nat),
      data.length ≤ s.maxSize →
      ((s.get id).2.put id data metadata now).1 = .accepted := by
  cases hl : lookupId s.entries id with
  | none => simp [TransferStore.get, hl] at hget
  | some e0 =>
    have hsnd : (s.get id).2 = { s with entries := eraseId s.entries id } := by
      simp [TransferStore.get, hl]
    have herase : lookupId (eraseId s.entries id) id = none :=
      lookupId_eraseId_self s.entries id hWF
    refine ⟨?_, ?_, ?_⟩
    · rw [hsnd]
      simp [TransferStore.get, herase]
    · rw [hsnd]
      simp [TransferStore.hasId, herase]
    · intro data metadata now hsize
      rw [hsnd]
      simp [TransferStore.put, herase, Nat.not_lt.mpr hsize]

theorem get_destructive_read_witness :
    (TransferStore.mk [("b", TransferEntry.mk [9] 0 none)] 100 10).WF ∧
    ((TransferStore.mk [("b", TransferEntry.mk [9] 0 none)] 100 10).get "b").1 =
      some (TransferEntry.mk [9] 0 none) ∧
    (((TransferStore.mk [("b", TransferEntry.mk [9] 0 none)] 100 10).get "b").2.get "b").1 = none ∧
    ((TransferStore.mk [("b", TransferEntry.mk [9] 0 none)] 100 10).get "b").2.hasId "b" = false ∧
    (((TransferStore.mk [("b", TransferEntry.mk [9] 0 none)] 100 10).get "b").2.put
      "b" [2] none 7).1 = .accepted := by
  have h := get_destructive_read (TransferStore.mk [("b", TransferEntry.mk [9] 0 none)] 100 10)
    "b" (TransferEntry.mk [9] 0 none) (by simp [TransferStore.WF]) (by decide)
  exact ⟨by simp [TransferStore.WF], by decide, h.1, h.2.1, h.2.2 [2] none 7 (by decide)⟩

/-- Claim C5 (amended): `put` rejects with the too-large reason exactly
when the payload exceeds `maxSize` (this check comes first); otherwise
it rejects with the duplicate reason exactly when an entry for the id is
physically present, whether or not that entry is logically expired;
otherwise it appends the entry stamped with the current time and
accepts.  Every rejection leaves the store unchanged. -/
theorem put_cases (s : TransferStore) (id : String) (data : List Nat)
    (metadata : Option String) (now : Nat) :
    (s.maxSize < data.length →
      s.put id data metadata now =
        (.rejected ("Payload too large: " ++ toString data.length ++
          " bytes (max " ++ toString s.maxSize ++ ")"), s)) ∧
    (data.length ≤ s.maxSize → s.hasId id = true →
      s.put id data metadata now = (.rejected "Transfer ID already exists", s)) ∧
    (data.length ≤ s.maxSize → s.hasId id = false →
      s.put id data metadata now =
        (.accepted, { s with entries := s.entries ++ [(id, ⟨data, now, metadata⟩)] })) := by
  refine ⟨?_, ?_, ?_⟩
  · intro h1
    simp [TransferStore.put, h1]
  · intro h1 h2
    unfold TransferStore.hasId at h2
    simp [TransferStore.put, Nat.not_lt.mpr h1, h2]
  · intro h1 h2
    unfold TransferStore.hasId at h2
    simp [TransferStore.put, Nat.not_lt.mpr h1, h2]

theorem put_cases_witness :
    ((TransferStore.mk [] 2 10).maxSize < [1, 2, 3].length ∧
      (TransferStore.mk [] 2 10).put "a" [1, 2, 3] none 5 =
        (.rejected ("Payload too large: " ++ toString [1, 2, 3].length ++
          " bytes (max " ++ toString (TransferStore.mk ([] : List (String × TransferEntry)) 2 10).maxSize ++ ")"),
         TransferStore.mk [] 2 10)) ∧
    ((TransferStore.mk [] 2 10).put "a" [1] none 5 =
        (.accepted, { TransferStore.mk ([] : List (String × TransferEntry)) 2 10 with
          entries := [] ++ [("a", TransferEntry.mk [1] 5 none)] })) ∧
    ((TransferStore.mk [("a", TransferEntry.mk [1] 5 none)] 2 10).put "a" [2] none 6 =
        (.rejected "Transfer ID already exists",
         TransferStore.mk [("a", TransferEntry.mk [1] 5 none)] 2 10)) :=
  ⟨⟨by decide, (put_cases _ "a" [1, 2, 3] none 5).1 (by decide)⟩,
   (put_cases _ "a" [1] none 5).2.2 (by decide) (by decide),
   (put_cases _ "a" [2] none 6).2.1 (by decide) (by decide)⟩

/-- Claim C5, as stated, is false: with TTL 10 ms, an entry created at
time 0 is no longer live at time 50, yet a small `put` for the same id
at time 50 is rejected as a duplicate instead of being accepted. -/
theorem put_duplicate_despite_expired :
    (TransferStore.mk [("d", TransferEntry.mk [1] 0 none)] 100 10).ttlMs ≤ 50 - 0 ∧
    [2].length ≤ (TransferStore.mk [("d", TransferEntry.mk [1] 0 none)] 100 10).maxSize ∧
    ((TransferStore.mk [("d", TransferEntry.mk [1] 0 none)] 100 10).put "d" [2] none 50).1 =
      .rejected "Transfer ID already exists" := by
  decide

/-- Claim C6 (amended): `cleanup` keeps exactly the entries whose age is
at most the TTL — so it removes exactly those strictly older than the
TTL, an entry of age exactly the TTL being kept — and the number it
returns plus the number surviving equals the old entry count. -/
theorem cleanup_removes_strictly_older (s : TransferStore) (now : Nat) :
    (∀ p : String × TransferEntry,
      p ∈ (s.cleanup now).2.entries ↔ p ∈ s.entries ∧ now - p.2.createdAt ≤ s.ttlMs) ∧
    (s.cleanup now).1 + (s.cleanup now).2.entries.length = s.entries.length := by
  constructor
  · intro p
    simp [TransferStore.cleanup, List.mem_filter, Nat.not_lt]
  · simpa [TransferStore.cleanup] using
      filter_length_split (fun p => decide (s.ttlMs < now - p.2.createdAt)) s.entries

theorem cleanup_removes_strictly_older_witness :
    ("f", TransferEntry.mk [1] 0 none) ∈
      ((TransferStore.mk [("f", TransferEntry.mk [1] 0 none)] 100 10).cleanup 5).2.entries :=
  ((cleanup_removes_strictly_older (TransferStore.mk [("f", TransferEntry.mk [1] 0 none)] 100 10)
    5).1 _).mpr (by decide)

/-- Claim C6, as stated, is false: with TTL 10 ms, an entry created at
time 0 has age exactly the TTL at time 10, yet `cleanup` at time 10
removes nothing and the entry survives. -/
theorem cleanup_keeps_entry_at_exact_ttl :
    (TransferStore.mk [("e", TransferEntry.mk [1] 0 none)] 100 10).ttlMs ≤ 10 - 0 ∧
    ((TransferStore.mk [("e", TransferEntry.mk [1] 0 none)] 100 10).cleanup 10).1 = 0 ∧
    ((TransferStore.mk [("e", TransferEntry.mk [1] 0 none)] 100 10).cleanup 10).2.hasId "e" =
      true := by
  decide

/-! ## Lemmas about the envelope -/

theorem zipWith_xor_cancel (p : List Nat) : ∀ s : List Nat, p.length ≤ s.length →
    List.zipWith Nat.xor (List.zipWith Nat.xor p s) s = p := by
  induction p with
  | nil => intro s h; simp
  | cons a p ih =>
    intro s h
    cases s with
    | nil => simp at h
    | cons b s =>
      simp only [List.zipWith_cons_cons]
      rw [ih s (by simpa using h)]
      exact congrArg (fun x => x :: p) (Nat.xor_cancel_right b a)

theorem envelope_split (iv ct tg : List Nat) (hiv : iv.length = IV_LENGTH)
    (htg : tg.length = AUTH_TAG_LENGTH) :
    ¬ (iv ++ (ct ++ tg)).length < IV_LENGTH + AUTH_TAG_LENGTH ∧
    (iv ++ (ct ++ tg)).take IV_LENGTH = iv ∧
    (iv ++ (ct ++ tg)).drop ((iv ++ (ct ++ tg)).length - AUTH_TAG_LENGTH) = tg ∧
    ((iv ++ (ct ++ tg)).take ((iv ++ (ct ++ tg)).length - AUTH_TAG_LENGTH)).drop
      IV_LENGTH = ct := by
  have hlen : (iv ++ (ct ++ tg)).length = IV_LENGTH + (ct.length + AUTH_TAG_LENGTH) := by
    simp [hiv, htg]
  have hsub : (iv ++ (ct ++ tg)).length - AUTH_TAG_LENGTH = (iv ++ ct).length := by
    simp [hlen, hiv]
    omega
  have hassoc : iv ++ (ct ++ tg) = (iv ++ ct) ++ tg := (List.append_assoc iv ct tg).symm
  refine ⟨?_, ?_, ?_, ?_⟩
  · rw [hlen]
    omega
  · rw [← hiv]
    exact List.take_left iv (ct ++ tg)
  · rw [hsub, hassoc]
    exact List.drop_left (iv ++ ct) tg
  · rw [hsub, hassoc, List.take_left (iv ++ ct) tg, ← hiv]
    exact List.drop_left iv ct

theorem decrypt_of_split (ks : Keystream) (tagf : TagFn) (key iv ct tg : List Nat)
    (hiv : iv.length = IV_LENGTH) (htg : tg.length = AUTH_TAG_LENGTH) :
    decrypt ks tagf key (iv ++ (ct ++ tg)) =
      if tagf key iv ct = tg then
        .ok (List.zipWith Nat.xor ct (ks key iv ct.length))
      else .error .authFailed := by
  obtain ⟨hshort, htake, hdrop, hmid⟩ := envelope_split iv ct tg hiv htg
  unfold decrypt
  rw [if_neg hshort]
  simp only [htake, hdrop, hmid]

theorem encrypt_eq (ks : Keystream) (tagf : TagFn) (key iv p : List Nat) :
    encrypt ks tagf key iv p =
      iv ++ (List.zipWith Nat.xor p (ks key iv p.length) ++
        tagf key iv (List.zipWith Nat.xor p (ks key iv p.length))) := by
  simp [encrypt]

/-- A concrete keystream, used to instantiate the abstract AEAD model on
closed inputs. -/
def ksConst : Keystream := fun _ _ n => List.replicate n 5

/-- A concrete key-sensitive tag function, used to instantiate the
abstract AEAD model on closed inputs. -/
def tagSum : TagFn := fun key _ ct => List.replicate AUTH_TAG_LENGTH (key.sum + ct.length)

/-! ## Claims about the envelope cipher -/

/-- Claim C3: for every plaintext, every 256-bit key and every 12-byte
nonce the random source may produce, opening the sealed envelope with
the same key recovers exactly the plaintext. -/
theorem decrypt_encrypt_roundtrip (ks : Keystream) (tagf : TagFn) (key iv p : List Nat)
    (hkey : key.length = KEY_LENGTH) (hiv : iv.length = IV_LENGTH)
    (hks : ∀ k i n, (ks k i n).length = n)
    (htag : ∀ k i c, (tagf k i c).length = AUTH_TAG_LENGTH) :
    decrypt ks tagf key (encrypt ks tagf key iv p) = .ok p := by
  have hct : (List.zipWith Nat.xor p (ks key iv p.length)).length = p.length := by
    rw [List.length_zipWith, hks, Nat.min_self]
  rw [encrypt_eq, decrypt_of_split ks tagf key iv _ _ hiv (htag key iv _), if_pos rfl, hct]
  exact congrArg Except.ok (zipWith_xor_cancel p _ (hks key iv p.length).ge)

theorem decrypt_encrypt_roundtrip_witness :
    (List.replicate 32 0).length = KEY_LENGTH ∧
    (List.replicate 12 1).length = IV_LENGTH ∧
    (∀ k i n, (ksConst k i n).length = n) ∧
    (∀ k i c, (tagSum k i c).length = AUTH_TAG_LENGTH) ∧
    decrypt ksConst tagSum (List.replicate 32 0)
      (encrypt ksConst tagSum (List.replicate 32 0) (List.replicate 12 1) [10, 200]) =
      .ok [10, 200] :=
  ⟨by decide, by decide, fun k i n => by simp [ksConst], fun k i c => by simp [tagSum],
   decrypt_encrypt_roundtrip ksConst tagSum _ _ [10, 200] (by decide) (by decide)
     (fun k i n => by simp [ksConst]) (fun k i c => by simp [tagSum])⟩

/-- Claim C4: `decrypt` never returns plaintext on failure: a blob
shorter than 28 bytes is rejected outright; a blob whose tag does not
verify yields an integrity error and no bytes; in particular opening
with a second key whose recomputed tag differs from the stored one
(as tag verification fails for a wrong key) yields an integrity error. -/
theorem decrypt_never_leaks (ks : Keystream) (tagf : TagFn) :
    (∀ (key blob : List Nat), blob.length < IV_LENGTH + AUTH_TAG_LENGTH →
      decrypt ks tagf key blob = .error .tooShort) ∧
    (∀ (key blob : List Nat), ¬ blob.length < IV_LENGTH + AUTH_TAG_LENGTH →
      tagf key (blob.take IV_LENGTH)
          ((blob.take (blob.length - AUTH_TAG_LENGTH)).drop IV_LENGTH) ≠
        blob.drop (blob.length - AUTH_TAG_LENGTH) →
      decrypt ks tagf key blob = .error .authFailed) ∧
    (∀ (k1 k2 iv p : List Nat), iv.length = IV_LENGTH →
      (∀ k i c, (tagf k i c).length = AUTH_TAG_LENGTH) →
      tagf k2 iv (List.zipWith Nat.xor p (ks k1 iv p.length)) ≠
        tagf k1 iv (List.zipWith Nat.xor p (ks k1 iv p.length)) →
      decrypt ks tagf k2 (encrypt ks tagf k1 iv p) = .error .authFailed) := by
  refine ⟨?_, ?_, ?_⟩
  · intro key blob h
    simp [decrypt, h]
  · intro key blob hlong hne
    unfold decrypt
    rw [if_neg hlong]
    simp only [if_neg hne]
  · intro k1 k2 iv p hiv htag hne
    rw [encrypt_eq, decrypt_of_split ks tagf k2 iv _ _ hiv (htag k1 iv _), if_neg hne]

theorem decrypt_never_leaks_witness :
    decrypt ksConst tagSum (List.replicate 32 0) [1, 2, 3] = .error .tooShort ∧
    decrypt ksConst tagSum (List.replicate 32 0) (List.replicate 30 0) =
      .error .authFailed ∧
    decrypt ksConst tagSum (List.replicate 32 1)
      (encrypt ksConst tagSum (List.replicate 32 0) (List.replicate 12 2) [7]) =
      .error .authFailed :=
  ⟨(decrypt_never_leaks ksConst tagSum).1 _ [1, 2, 3] (by decide),
   (decrypt_never_leaks ksConst tagSum).2.1 _ (List.replicate 30 0) (by decide) (by decide),
   (decrypt_never_leaks ksConst tagSum).2.2 _ _ _ [7] (by decide)
     (fun k i c => by simp [tagSum]) (by decide)⟩

/-- Claim C10: the envelope is exactly 28 bytes (12-byte nonce plus
16-byte tag) longer than the plaintext, so with no entry under the id
the relay accepts the envelope exactly when the plaintext is at most 28
bytes below the size cap. -/
theorem encrypt_length_spec (ks : Keystream) (tagf : TagFn) (key iv p : List Nat)
    (hiv : iv.length = IV_LENGTH) (hks : ∀ k i n, (ks k i n).length = n)
    (htag : ∀ k i c, (tagf k i c).length = AUTH_TAG_LENGTH) :
    (encrypt ks tagf key iv p).length = p.length + (IV_LENGTH + AUTH_TAG_LENGTH) ∧
    ∀ (s : TransferStore) (id : String) (metadata : Option String) (now : Nat),
      s.hasId id = false →
      (((s.put id (encrypt ks tagf key iv p) metadata now).1 = .accepted) ↔
        p.length + (IV_LENGTH + AUTH_TAG_LENGTH) ≤ s.maxSize) := by
  have hlen : (encrypt ks tagf key iv p).length =
      p.length + (IV_LENGTH + AUTH_TAG_LENGTH) := by
    rw [encrypt_eq]
    simp [hiv, htag, List.length_zipWith, hks]
    omega
  refine ⟨hlen, ?_⟩
  intro s id metadata now hno
  unfold TransferStore.hasId at hno
  constructor
  · intro hacc
    by_contra hgt
    rw [Nat.not_le, ← hlen] at hgt
    rw [put_too_large s id _ metadata now hgt] at hacc
    exact PutResult.noConfusion hacc
  · intro hle
    rw [put_accepts s id _ metadata now (hlen ▸ hle) hno]

theorem encrypt_length_spec_witness :
    (encrypt ksConst tagSum (List.replicate 32 0) (List.replicate 12 1) [7]).length =
      [7].length + (IV_LENGTH + AUTH_TAG_LENGTH) ∧
    (TransferStore.mk [] 40 10).hasId "a" = false ∧
    ((TransferStore.mk [] 40 10).put "a"
      (encrypt ksConst tagSum (List.replicate 32 0) (List.replicate 12 1) [7]) none 5).1 =
      .accepted := by
  have h := encrypt_length_spec ksConst tagSum (List.replicate 32 0) (List.replicate 12 1)
    [7] (by decide) (fun k i n => by simp [ksConst]) (fun k i c => by simp [tagSum])
  exact ⟨h.1, by decide, (h.2 (TransferStore.mk [] 40 10) "a" none 5 (by decide)).mpr (by decide)⟩

/-! ## Lemmas about the code scanner -/

theorem takeWhile_all_true (p : Char → Bool) : ∀ cs : List Char, (cs.takeWhile p).all p = true
  | [] => rfl
  | c :: cs => by
    cases hc : p c <;> simp [List.takeWhile_cons, hc, takeWhile_all_true p cs]

theorem takeWhile_eq_of_append (p : Char → Bool) :
    ∀ (xs : List Char) (y : Char) (ys : List Char),
      xs.all p = true → p y = false → (xs ++ y :: ys).takeWhile p = xs
  | [], y, ys, _, hy => by simp [List.takeWhile_cons, hy]
  | x :: xs, y, ys, hall, hy => by
    simp only [List.all_cons, Bool.and_eq_true] at hall
    simp [List.takeWhile_cons, hall.1, takeWhile_eq_of_append p xs y ys hall.2 hy]

theorem dropWhile_eq_of_append (p : Char → Bool) :
    ∀ (xs : List Char) (y : Char) (ys : List Char),
      xs.all p = true → p y = false → (xs ++ y :: ys).dropWhile p = y :: ys
  | [], y, ys, _, hy => by simp [List.dropWhile_cons, hy]
  | x :: xs, y, ys, hall, hy => by
    simp only [List.all_cons, Bool.and_eq_true] at hall
    simp [List.dropWhile_cons, hall.1, dropWhile_eq_of_append p xs y ys hall.2 hy]

theorem take_one_singleton {α : Type} (l : List α) (a : α) (h : l.take 1 = [a]) :
    l = a :: l.drop 1 := by
  cases l with
  | nil => simp at h
  | cons x xs =>
    simp at h
    simp [h]

theorem scan_decompose (cs : List Char) (p q : Char → Bool)
    (h1 : (cs.dropWhile p).take 1 = ['-'])
    (h2 : (((cs.dropWhile p).drop 1).dropWhile q).take 1 = ['-']) :
    cs = cs.takeWhile p ++ '-' ::
      (((cs.dropWhile p).drop 1).takeWhile q ++ '-' ::
        ((((cs.dropWhile p).drop 1).dropWhile q).drop 1)) := by
  have e2 := take_one_singleton _ _ h1
  have e4 := take_one_singleton _ _ h2
  have e3 := List.takeWhile_append_dropWhile q ((cs.dropWhile p).drop 1)
  have e1 := List.takeWhile_append_dropWhile p cs
  rw [← e4, e3, ← e2, e1]

/-- Shape of a string matching `^(\d+)-([a-z]+)-([a-z]+)$` with the
three capture groups. -/
def CodeShape (cs ds w1 w2 : List Char) : Prop :=
  cs = ds ++ '-' :: (w1 ++ '-' :: w2) ∧
  ds ≠ [] ∧ ds.all Char.isDigit = true ∧
  w1 ≠ [] ∧ w1.all Char.isLower = true ∧
  w2 ≠ [] ∧ w2.all Char.isLower = true

theorem splitCode_eq_some_iff (cs ds w1 w2 : List Char) :
    splitCode cs = some (ds, w1, w2) ↔ CodeShape cs ds w1 w2 := by
  constructor
  · intro h
    simp only [splitCode] at h
    split at h
    case isFalse => exact absurd h (by simp)
    case isTrue hC =>
      obtain ⟨hds, hw1, hw2⟩ : cs.takeWhile Char.isDigit = ds ∧
          ((cs.dropWhile Char.isDigit).drop 1).takeWhile Char.isLower = w1 ∧
          ((((cs.dropWhile Char.isDigit).drop 1).dropWhile Char.isLower).drop 1) = w2 := by
        simpa using h
      obtain ⟨h1, h2, hdne, hw1ne, hw2ne, hw2all⟩ := hC
      refine ⟨?_, ?_, ?_, ?_, ?_, ?_, ?_⟩
      · rw [← hds, ← hw1, ← hw2]
        exact scan_decompose cs Char.isDigit Char.isLower h1 h2
      · rw [← hds]; exact hdne
      · rw [← hds]; exact takeWhile_all_true Char.isDigit cs
      · rw [← hw1]; exact hw1ne
      · rw [← hw1]; exact takeWhile_all_true Char.isLower _
      · rw [← hw2]; exact hw2ne
      · rw [← hw2]; exact hw2all
  · rintro ⟨hcs, hds, hdall, hw1, hw1all, hw2, hw2all⟩
    have hd : Char.isDigit '-' = false := by decide
    have hl : Char.isLower '-' = false := by decide
    have e1 : cs.takeWhile Char.isDigit = ds := by
      rw [hcs]; exact takeWhile_eq_of_append Char.isDigit ds '-' _ hdall hd
    have e2 : cs.dropWhile Char.isDigit = '-' :: (w1 ++ '-' :: w2) := by
      rw [hcs]; exact dropWhile_eq_of_append Char.isDigit ds '-' _ hdall hd
    have e3 : (w1 ++ '-' :: w2).takeWhile Char.isLower = w1 :=
      takeWhile_eq_of_append Char.isLower w1 '-' w2 hw1all hl
    have e4 : (w1 ++ '-' :: w2).dropWhile Char.isLower = '-' :: w2 :=
      dropWhile_eq_of_append Char.isLower w1 '-' w2 hw1all hl
    simp [splitCode, e1, e2, e3, e4, hds, hw1, hw2, hw2all]

/-- A string matching the format of `parseCode` as the code implements
it: the anchored pattern `\d+-[a-z]+-[a-z]+` whose decimal value lies
in [1, 999]. -/
def MatchesCodeFormat (s : String) : Prop :=
  ∃ ds w1 w2, CodeShape s.toList ds w1 w2 ∧
    1 ≤ decimalValue ds ∧ decimalValue ds ≤ 999

theorem parseCode_eq_of_split (s : String) (ds w1 w2 : List Char)
    (hsp : splitCode s.toList = some (ds, w1, w2)) :
    parseCode s =
      if decimalValue ds < 1 ∨ 999 < decimalValue ds then none
      else some (decimalValue ds, String.mk w1, String.mk w2) := by
  unfold parseCode
  rw [hsp]

theorem parseCode_isSome_iff (s : String) :
    (parseCode s).isSome = true ↔ MatchesCodeFormat s := by
  constructor
  · intro h
    cases hsp : splitCode s.toList with
    | none =>
      unfold parseCode at h
      rw [hsp] at h
      simp at h
    | some t =>
      obtain ⟨ds, w1, w2⟩ := t
      rw [parseCode_eq_of_split s ds w1 w2 hsp] at h
      by_cases hr : decimalValue ds < 1 ∨ 999 < decimalValue ds
      · rw [if_pos hr] at h
        simp at h
      · push_neg at hr
        exact ⟨ds, w1, w2, (splitCode_eq_some_iff _ _ _ _).mp hsp, hr.1, hr.2⟩
  · rintro ⟨ds, w1, w2, hshape, hlo, hhi⟩
    have hsp := (splitCode_eq_some_iff s.toList ds w1 w2).mpr hshape
    rw [parseCode_eq_of_split s ds w1 w2 hsp]
    have hr : ¬ (decimalValue ds < 1 ∨ 999 < decimalValue ds) := by omega
    rw [if_neg hr]
    rfl

/-! ## Claims about code parsing and validation -/

/-- Claim C7 (amended): `parseCode` is pure and total, returning an
explicit failure marker on bad input, and it accepts a string exactly
when it matches `^\d+-[a-z]+-[a-z]+$` with decimal value in [1, 999]
(so leading zeros are permitted as long as the value is in range); in
particular it rejects the value 0, values over 999, missing segments
and stray characters, and accepts "1-alpha-beta" and "999-zoo-ark". -/
theorem parseCode_accepts_iff :
    (∀ s : String, (parseCode s).isSome = true ↔ MatchesCodeFormat s) ∧
    parseCode "1-alpha-beta" = some (1, "alpha", "beta") ∧
    parseCode "999-zoo-ark" = some (999, "zoo", "ark") ∧
    parseCode "0-a-b" = none ∧
    parseCode "1000-a-b" = none ∧
    parseCode "abc-a-b" = none ∧
    parseCode "1-onlyone" = none ∧
    parseCode "" = none :=
  ⟨parseCode_isSome_iff, by decide, by decide, by decide, by decide,
   by decide, by decide, by decide⟩

theorem parseCode_accepts_iff_witness : MatchesCodeFormat "42-banana-thunder" :=
  (parseCode_accepts_iff.1 "42-banana-thunder").mp (by decide)

/-- Claim C7, as stated, is false: "0001-alpha-beta" does not match the
claimed pattern `^\d{1,3}-[a-z]+-[a-z]+$` (its digit group has four
characters), yet `parseCode` accepts it, with value 1. -/
theorem parseCode_accepts_leading_zeros :
    parseCode "0001-alpha-beta" = some (1, "alpha", "beta") ∧
    ¬ ∃ ds w1 w2, CodeShape "0001-alpha-beta".toList ds w1 w2 ∧ ds.length ≤ 3 := by
  refine ⟨by decide, ?_⟩
  rintro ⟨ds, w1, w2, hshape, hlen⟩
  have h := (splitCode_eq_some_iff "0001-alpha-beta".toList ds w1 w2).mpr hshape
  have h0 : splitCode "0001-alpha-beta".toList =
      some (['0', '0', '0', '1'],
        (['a', 'l', 'p', 'h', 'a'], ['b', 'e', 't', 'a'])) := by decide
  rw [h0] at h
  simp only [Option.some.injEq, Prod.mk.injEq] at h
  obtain ⟨hds, -⟩ := h
  rw [← hds] at hlen
  exact absurd hlen (by decide)

/-- Claim C8 (amended): the validation `receive` performs on its code
argument before deriving keys accepts a code exactly when it matches
the `parseCode` format (`\d+-[a-z]+-[a-z]+` with value in [1, 999]); it
imposes no requirement that the two words differ nor that they belong
to the shared dictionary. -/
theorem receive_validation_format_only :
    (∀ s : String, receiveValidated s = .ok () ↔ MatchesCodeFormat s) ∧
    receiveValidated "7-zebra-zebra" = .ok () ∧
    WORDS.contains "zebra" = true ∧
    receiveValidated "1-alpha-beta" = .ok () ∧
    WORDS.contains "alpha" = false := by
  refine ⟨?_, rfl, by decide, rfl, by decide⟩
  intro s
  unfold receiveValidated isValidCode
  constructor
  · intro h
    by_cases hv : (parseCode s).isSome = true
    · exact (parseCode_isSome_iff s).mp hv
    · rw [if_neg hv] at h
      exact absurd h (by simp)
  · intro h
    rw [if_pos ((parseCode_isSome_iff s).mpr h)]

theorem receive_validation_format_only_witness : MatchesCodeFormat "3-hazel-jade" :=
  (receive_validation_format_only.1 "3-hazel-jade").mp rfl

/-- Claim C8, as stated, is false: the code "7-zebra-zebra" has two
equal words and the code "6-aqua-bravo" has words outside the shared
dictionary, yet both pass the validation `receive` performs before any
key derivation. -/
theorem receive_validation_no_word_checks :
    parseCode "7-zebra-zebra" = some (7, "zebra", "zebra") ∧
    receiveValidated "7-zebra-zebra" = .ok () ∧
    WORDS.contains "zebra" = true ∧
    parseCode "6-aqua-bravo" = some (6, "aqua", "bravo") ∧
    receiveValidated "6-aqua-bravo" = .ok () ∧
    WORDS.contains "aqua" = false :=
  ⟨by decide, rfl, by decide, by decide, rfl, by decide⟩

end Wormhole
